import Mathlib

/-!
Shallow embedding of the Game-of-Life core from `src/lib.rs` of
`wasm-game-of-life`, together with proofs about the claims of its
specification.

Modelling conventions:
* `u32`/`usize` values are modelled as `Nat` (the grids involved are far
  below any overflow boundary).
* A Rust indexing expression `self.cells[idx]` panics when `idx` is out of
  bounds; reads are modelled with `List.getElem?` (`l[i]?`) and writes with
  the bounds-checked `setCell`, both returning `none` exactly when the Rust
  code would panic.  Every fallible operation therefore lives in `Option`.
* The external randomness source used by `Universe::new`
  (`js_sys::Math::random()` compared against `0.5`) is modelled as an
  arbitrary function `rnd : Nat → Cell` giving the outcome of that
  comparison for each cell index.
-/

set_option maxHeartbeats 1000000
set_option maxRecDepth 8000

/-- `Cell`: two-state cell value, `Dead = 0`, `Alive = 1` (`src/lib.rs` 15-18). -/
inductive Cell
  | Dead
  | Alive
deriving DecidableEq

/-- Numeric code of a cell, as used by `count += self.cells[idx] as u8`. -/
def cellVal : Cell → Nat
  | Cell.Dead => 0
  | Cell.Alive => 1

/-- `Universe`: width, height and a row-major cell buffer (`src/lib.rs` 21-25). -/
structure Universe where
  width : Nat
  height : Nat
  cells : List Cell
deriving DecidableEq

/-- `Universe::get_index` (`src/lib.rs` 28-30): `row * width + column`. -/
def get_index (u : Universe) (row column : Nat) : Nat :=
  row * u.width + column

/-- Bounds-checked list write.  Rust's `self.cells[idx] = v` panics when
`idx` is out of bounds; here that case is `none`. -/
def setCell (l : List Cell) (i : Nat) (v : Cell) : Option (List Cell) :=
  if i < l.length then some (l.set i v) else none

/-- `Universe::get_live_neighbor_count` (`src/lib.rs` 32-50), verbatim
including the width/height mixing: the row offset is reduced modulo
`self.width` and the column offset modulo `self.height`.  `none` models the
panic of `self.cells[idx]` when `idx` is out of bounds. -/
def get_live_neighbor_count (u : Universe) (row column : Nat) : Option Nat :=
  [u.height - 1, 0, 1].foldlM (fun count delta_row =>
    [u.width - 1, 0, 1].foldlM (fun count delta_col =>
      if delta_row = 0 ∧ delta_col = 0 then pure count
      else do
        let neighbor_row := (row + delta_row) % u.width
        let neighbor_col := (column + delta_col) % u.height
        let idx := get_index u neighbor_row neighbor_col
        let c ← u.cells[idx]?
        pure (count + cellVal c)) count) 0

/-- Dimensionally correct neighbor count, following the wording of the
spec (§4.1): row coordinate `(row + delta_row) mod height`, column
coordinate `(column + delta_col) mod width`, row deltas `{height-1, 0, 1}`,
column deltas `{width-1, 0, 1}`, skipping the `(0, 0)` offset.  Used only to
compare `get_live_neighbor_count` against the specified behavior. -/
def neighborCountSpec (u : Universe) (row column : Nat) : Option Nat :=
  [u.height - 1, 0, 1].foldlM (fun count delta_row =>
    [u.width - 1, 0, 1].foldlM (fun count delta_col =>
      if delta_row = 0 ∧ delta_col = 0 then pure count
      else do
        let neighbor_row := (row + delta_row) % u.height
        let neighbor_col := (column + delta_col) % u.width
        let idx := get_index u neighbor_row neighbor_col
        let c ← u.cells[idx]?
        pure (count + cellVal c)) count) 0

/-- `Universe::set_alive` (`src/lib.rs` 52-55): `self.cells[idx] = Alive`,
`none` when the write is out of bounds (the Rust panic). -/
def set_alive (u : Universe) (row col : Nat) : Option Universe := do
  let cells ← setCell u.cells (get_index u row col) Cell.Alive
  some { u with cells := cells }

/-- The `match (cell, live_neighbors)` of `Universe::tick`
(`src/lib.rs` 110-116), arm by arm. -/
def nextCell : Cell → Nat → Cell
  | Cell.Alive, x =>
      if x < 2 then Cell.Dead
      else if x = 2 ∨ x = 3 then Cell.Alive
      else if 3 < x then Cell.Dead
      else Cell.Alive
  | Cell.Dead, x =>
      if x = 3 then Cell.Alive
      else Cell.Dead

/-- Body of the inner `for col` loop of `Universe::tick`
(`src/lib.rs` 106-118): read the current cell, count its live neighbors
(both against the previous generation `u`), and write the new state into
the scratch buffer. -/
def stepCol (u : Universe) (row : Nat) (buf : List Cell) (col : Nat) :
    Option (List Cell) := do
  let cell ← u.cells[get_index u row col]?
  let live_neighbors ← get_live_neighbor_count u row col
  setCell buf (get_index u row col) (nextCell cell live_neighbors)

/-- The inner `for col in 0..self.width` loop of `Universe::tick`. -/
def stepRow (u : Universe) (buf : List Cell) (row : Nat) : Option (List Cell) :=
  (List.range u.width).foldlM (stepCol u row) buf

/-- `Universe::tick` (`src/lib.rs` 101-124): clone the cells into `next`,
update every position against the previous generation, install `next`. -/
def tick (u : Universe) : Option Universe := do
  let next ← (List.range u.height).foldlM (stepRow u) u.cells
  some { u with cells := next }

/-- `Universe::generate_glider` (`src/lib.rs` 126-132). -/
def generate_glider (u : Universe) : Option Universe := do
  let u1 ← set_alive u 1 2
  let u2 ← set_alive u1 2 3
  let u3 ← set_alive u2 3 1
  let u4 ← set_alive u3 3 2
  set_alive u4 3 3

/-- `Universe::new` (`src/lib.rs` 61-83): 64×64 grid, each cell drawn from
the external randomness source (modelled by `rnd`), then the glider seed. -/
def Universe.new (rnd : Nat → Cell) : Option Universe :=
  let width : Nat := 64
  let height : Nat := 64
  let cells := (List.range (width * height)).map rnd
  generate_glider { width := width, height := height, cells := cells }

/-- Glyph choice of the `Display` impl (`src/lib.rs` 139). -/
def renderCellChar (c : Cell) : Char :=
  if c = Cell.Dead then '◻' else '◼'

/-- `slice::chunks` with chunk size `n + 1` (Rust's `chunks` panics on
chunk size 0, which `render` rules out before calling this). -/
def chunkList (n : Nat) : List Cell → List (List Cell)
  | [] => []
  | x :: xs => (x :: xs.take n) :: chunkList n (xs.drop n)
termination_by l => l.length
decreasing_by simp [List.length_drop]; omega

/-- `Universe::render` / the `Display` impl (`src/lib.rs` 85-87, 135-147):
one line per width-sized chunk of the cell buffer, one glyph per cell,
newline-terminated.  `none` models the `chunks(0)` panic for width 0. -/
def render (u : Universe) : Option String :=
  if u.width = 0 then none
  else some (String.join ((chunkList (u.width - 1) u.cells).map
    (fun line => String.mk (line.map renderCellChar) ++ "\n")))

/-- One public mutating call on a `Universe`. -/
inductive UOp
  | tick
  | setAlive (row col : Nat)
  | glider
deriving DecidableEq

/-- Execute one call. -/
def runOp (u : Universe) : UOp → Option Universe
  | UOp.tick => tick u
  | UOp.setAlive r c => set_alive u r c
  | UOp.glider => generate_glider u

/-- Execute a sequence of calls, stopping at the first panic. -/
def runOps (u : Universe) (ops : List UOp) : Option Universe :=
  ops.foldlM runOp u

/-! ### Helper lemmas about indexing and the tick loops -/

theorem setCell_eq_some {l l' : List Cell} {i : Nat} {v : Cell} :
    setCell l i v = some l' ↔ i < l.length ∧ l' = l.set i v := by
  unfold setCell
  split
  · simp [eq_comm]
    omega
  · simp
    omega

theorem get_index_lt (u : Universe) {r c : Nat} (hr : r < u.height) (hc : c < u.width) :
    get_index u r c < u.width * u.height := by
  unfold get_index
  have h1 : (r + 1) * u.width ≤ u.height * u.width :=
    Nat.mul_le_mul_right _ hr
  have h2 : (r + 1) * u.width = r * u.width + u.width := by ring
  have h3 : u.height * u.width = u.width * u.height := by ring
  omega

theorem get_index_inj (u : Universe) {r c r' c' : Nat}
    (hc : c < u.width) (hc' : c' < u.width)
    (h : get_index u r c = get_index u r' c') : r = r' ∧ c = c' := by
  unfold get_index at h
  have key : r = r' := by
    rcases Nat.lt_trichotomy r r' with hlt | heq | hgt
    · exfalso
      have h1 : (r + 1) * u.width ≤ r' * u.width := Nat.mul_le_mul_right _ hlt
      have h2 : (r + 1) * u.width = r * u.width + u.width := by ring
      omega
    · exact heq
    · exfalso
      have h1 : (r' + 1) * u.width ≤ r * u.width := Nat.mul_le_mul_right _ hgt
      have h2 : (r' + 1) * u.width = r' * u.width + u.width := by ring
      omega
  subst key
  exact ⟨rfl, by omega⟩

theorem stepCol_eq_some {u : Universe} {row : Nat} {buf buf' : List Cell} {col : Nat}
    (h : stepCol u row buf col = some buf') :
    ∃ cell n, u.cells[get_index u row col]? = some cell ∧
      get_live_neighbor_count u row col = some n ∧
      get_index u row col < buf.length ∧
      buf' = buf.set (get_index u row col) (nextCell cell n) := by
  unfold stepCol at h
  cases hc : u.cells[get_index u row col]? with
  | none => rw [hc] at h; simp at h
  | some cell =>
    rw [hc] at h
    cases hn : get_live_neighbor_count u row col with
    | none => rw [hn] at h; simp at h
    | some n =>
      rw [hn] at h
      simp only [Option.bind_eq_bind, Option.some_bind] at h
      obtain ⟨hlt, rfl⟩ := setCell_eq_some.mp h
      exact ⟨cell, n, rfl, rfl, hlt, rfl⟩

theorem stepCol_fold (u : Universe) (row : Nat) :
    ∀ (k : Nat) (buf buf' : List Cell),
      (List.range k).foldlM (stepCol u row) buf = some buf' →
      buf'.length = buf.length ∧
      (∀ c, c < k → ∃ cell n,
          u.cells[get_index u row c]? = some cell ∧
          get_live_neighbor_count u row c = some n ∧
          buf'[get_index u row c]? = some (nextCell cell n)) ∧
      (∀ j, (∀ c, c < k → j ≠ get_index u row c) → buf'[j]? = buf[j]?) := by
  intro k
  induction k with
  | zero =>
    intro buf buf' h
    simp only [List.range_zero, List.foldlM_nil, Option.pure_def, Option.some.injEq] at h
    subst h
    exact ⟨rfl, fun c hc => absurd hc (Nat.not_lt_zero c), fun j _ => rfl⟩
  | succ k ih =>
    intro buf buf' h
    rw [List.range_succ, List.foldlM_append] at h
    cases hmid : (List.range k).foldlM (stepCol u row) buf with
    | none => rw [hmid] at h; simp at h
    | some mid =>
      rw [hmid] at h
      simp only [Option.bind_eq_bind, Option.some_bind, List.foldlM_cons,
        List.foldlM_nil, Option.pure_def, Option.bind_some] at h
      obtain ⟨hlen, hwritten, huntouched⟩ := ih buf mid hmid
      obtain ⟨cell, n, hcell, hn, hidx, rfl⟩ := stepCol_eq_some h
      refine ⟨by simp [hlen], ?_, ?_⟩
      · intro c hc
        rcases Nat.lt_succ_iff_lt_or_eq.mp hc with hc' | rfl
        · obtain ⟨cell', n', h1, h2, h3⟩ := hwritten c hc'
          have hne : get_index u row k ≠ get_index u row c := by
            unfold get_index; omega
          refine ⟨cell', n', h1, h2, ?_⟩
          rw [List.getElem?_set_ne hne]
          exact h3
        · exact ⟨cell, n, hcell, hn, by rw [List.getElem?_set_self hidx]⟩
      · intro j hj
        have hne : get_index u row k ≠ j :=
          Ne.symm (hj k (Nat.lt_succ_self k))
        rw [List.getElem?_set_ne hne]
        exact huntouched j (fun c hc => hj c (Nat.lt_succ_of_lt hc))

theorem stepRow_fold (u : Universe) :
    ∀ (k : Nat) (buf buf' : List Cell),
      (List.range k).foldlM (stepRow u) buf = some buf' →
      buf'.length = buf.length ∧
      (∀ r c, r < k → c < u.width → ∃ cell n,
          u.cells[get_index u r c]? = some cell ∧
          get_live_neighbor_count u r c = some n ∧
          buf'[get_index u r c]? = some (nextCell cell n)) ∧
      (∀ j, (∀ r c, r < k → c < u.width → j ≠ get_index u r c) → buf'[j]? = buf[j]?) := by
  intro k
  induction k with
  | zero =>
    intro buf buf' h
    simp only [List.range_zero, List.foldlM_nil, Option.pure_def, Option.some.injEq] at h
    subst h
    exact ⟨rfl, fun r c hr => absurd hr (Nat.not_lt_zero r), fun j _ => rfl⟩
  | succ k ih =>
    intro buf buf' h
    rw [List.range_succ, List.foldlM_append] at h
    cases hmid : (List.range k).foldlM (stepRow u) buf with
    | none => rw [hmid] at h; simp at h
    | some mid =>
      rw [hmid] at h
      simp only [Option.bind_eq_bind, Option.some_bind, List.foldlM_cons,
        List.foldlM_nil, Option.pure_def, Option.bind_some] at h
      obtain ⟨hlen, hwritten, huntouched⟩ := ih buf mid hmid
      obtain ⟨hlen2, hwritten2, huntouched2⟩ := stepCol_fold u k u.width mid buf' h
      refine ⟨by rw [hlen2, hlen], ?_, ?_⟩
      · intro r c hr hc
        rcases Nat.lt_succ_iff_lt_or_eq.mp hr with hr' | rfl
        · obtain ⟨cell, n, h1, h2, h3⟩ := hwritten r c hr' hc
          refine ⟨cell, n, h1, h2, ?_⟩
          have hunt : buf'[get_index u r c]? = mid[get_index u r c]? := by
            refine huntouched2 _ (fun c' hc' heq => ?_)
            have := (get_index_inj u hc hc' heq).1
            omega
          rw [hunt]
          exact h3
        · exact hwritten2 c hc
      · intro j hj
        have h1 : buf'[j]? = mid[j]? :=
          huntouched2 j (fun c' hc' => hj k c' (Nat.lt_succ_self k) hc')
        rw [h1]
        exact huntouched j (fun r c hr hc => hj r c (Nat.lt_succ_of_lt hr) hc)

theorem tick_spec {u u' : Universe} (ht : tick u = some u') :
    u'.width = u.width ∧ u'.height = u.height ∧ u'.cells.length = u.cells.length ∧
    ∀ r c, r < u.height → c < u.width → ∃ cell n,
      u.cells[get_index u r c]? = some cell ∧
      get_live_neighbor_count u r c = some n ∧
      u'.cells[get_index u r c]? = some (nextCell cell n) := by
  unfold tick at ht
  cases hnext : (List.range u.height).foldlM (stepRow u) u.cells with
  | none => rw [hnext] at ht; simp at ht
  | some next =>
    rw [hnext] at ht
    simp only [Option.bind_eq_bind, Option.some_bind, Option.some.injEq] at ht
    subst ht
    obtain ⟨hlen, hwritten, _⟩ := stepRow_fold u u.height u.cells next hnext
    exact ⟨rfl, rfl, hlen, fun r c hr hc => hwritten r c hr hc⟩

theorem foldlM_option_length {α : Type} (f : List Cell → α → Option (List Cell))
    (hf : ∀ b x b', f b x = some b' → b'.length = b.length) :
    ∀ (l : List α) (b b' : List Cell), l.foldlM f b = some b' → b'.length = b.length := by
  intro l
  induction l with
  | nil =>
    intro b b' h
    simp only [List.foldlM_nil, Option.pure_def, Option.some.injEq] at h
    subst h; rfl
  | cons x xs ih =>
    intro b b' h
    simp only [List.foldlM_cons, Option.bind_eq_bind] at h
    cases hx : f b x with
    | none => rw [hx] at h; simp at h
    | some mid =>
      rw [hx] at h
      simp only [Option.some_bind] at h
      rw [ih mid b' h, hf b x mid hx]

theorem stepCol_length {u : Universe} {row : Nat} {buf buf' : List Cell} {col : Nat}
    (h : stepCol u row buf col = some buf') : buf'.length = buf.length := by
  obtain ⟨cell, n, _, _, _, rfl⟩ := stepCol_eq_some h
  simp

theorem stepRow_length {u : Universe} {buf buf' : List Cell} {row : Nat}
    (h : stepRow u buf row = some buf') : buf'.length = buf.length :=
  foldlM_option_length (stepCol u row) (fun _ _ _ hs => stepCol_length hs) _ buf buf' h

theorem tick_dims {u u' : Universe} (h : tick u = some u') :
    u'.width = u.width ∧ u'.height = u.height ∧ u'.cells.length = u.cells.length := by
  obtain ⟨h1, h2, h3, _⟩ := tick_spec h
  exact ⟨h1, h2, h3⟩

theorem set_alive_eq_some {u u' : Universe} {row col : Nat} :
    set_alive u row col = some u' ↔
      get_index u row col < u.cells.length ∧
      u' = { u with cells := u.cells.set (get_index u row col) Cell.Alive } := by
  unfold set_alive setCell
  split
  · rename_i hlt
    simp only [Option.bind_eq_bind, Option.some_bind, Option.some.injEq]
    constructor
    · rintro rfl; exact ⟨hlt, rfl⟩
    · rintro ⟨-, rfl⟩; rfl
  · rename_i hlt
    simp only [Option.bind_eq_bind, Option.none_bind]
    constructor
    · intro h; exact Option.noConfusion h
    · rintro ⟨h1, -⟩; exact absurd h1 hlt

theorem set_alive_dims {u u' : Universe} {row col : Nat}
    (h : set_alive u row col = some u') :
    u'.width = u.width ∧ u'.height = u.height ∧ u'.cells.length = u.cells.length := by
  obtain ⟨hlt, rfl⟩ := set_alive_eq_some.mp h
  simp

theorem generate_glider_dims {u u' : Universe} (h : generate_glider u = some u') :
    u'.width = u.width ∧ u'.height = u.height ∧ u'.cells.length = u.cells.length := by
  unfold generate_glider at h
  cases h1 : set_alive u 1 2 with
  | none => rw [h1] at h; simp at h
  | some a =>
    rw [h1] at h
    simp only [Option.bind_eq_bind, Option.some_bind] at h
    cases h2 : set_alive a 2 3 with
    | none => rw [h2] at h; simp at h
    | some b =>
      rw [h2] at h
      simp only [Option.some_bind] at h
      cases h3 : set_alive b 3 1 with
      | none => rw [h3] at h; simp at h
      | some c =>
        rw [h3] at h
        simp only [Option.some_bind] at h
        cases h4 : set_alive c 3 2 with
        | none => rw [h4] at h; simp at h
        | some d =>
          rw [h4] at h
          simp only [Option.some_bind] at h
          obtain ⟨w1, hh1, l1⟩ := set_alive_dims h1
          obtain ⟨w2, hh2, l2⟩ := set_alive_dims h2
          obtain ⟨w3, hh3, l3⟩ := set_alive_dims h3
          obtain ⟨w4, hh4, l4⟩ := set_alive_dims h4
          obtain ⟨w5, hh5, l5⟩ := set_alive_dims h
          exact ⟨by rw [w5, w4, w3, w2, w1], by rw [hh5, hh4, hh3, hh2, hh1],
            by rw [l5, l4, l3, l2, l1]⟩

theorem runOp_dims {u u' : Universe} {op : UOp} (h : runOp u op = some u') :
    u'.width = u.width ∧ u'.height = u.height ∧ u'.cells.length = u.cells.length := by
  cases op with
  | tick => exact tick_dims h
  | setAlive r c => exact set_alive_dims h
  | glider => exact generate_glider_dims h

theorem runOps_dims : ∀ (ops : List UOp) (u u' : Universe), runOps u ops = some u' →
    u'.width = u.width ∧ u'.height = u.height ∧ u'.cells.length = u.cells.length := by
  intro ops
  induction ops with
  | nil =>
    intro u u' h
    simp only [runOps, List.foldlM_nil, Option.pure_def, Option.some.injEq] at h
    subst h; exact ⟨rfl, rfl, rfl⟩
  | cons op ops ih =>
    intro u u' h
    unfold runOps at h
    simp only [List.foldlM_cons, Option.bind_eq_bind] at h
    cases hop : runOp u op with
    | none => rw [hop] at h; simp at h
    | some um =>
      rw [hop] at h
      simp only [Option.some_bind] at h
      obtain ⟨w1, h1, l1⟩ := runOp_dims hop
      obtain ⟨w2, h2, l2⟩ := ih um u' h
      exact ⟨w2.trans w1, h2.trans h1, l2.trans l1⟩

/-! ### Claim theorems -/

/-- C1: for every universe whose cell buffer has length `width * height`, a
completed `tick` computes the next state of every in-range cell from the
previous generation only: the old cell value and the live-neighbor count
are both read from the pre-tick universe, and the value written at the
cell's row-major index follows the Life rule — Alive with fewer than 2
live neighbors becomes Dead, Alive with 2 or 3 stays Alive, Alive with
more than 3 becomes Dead, Dead with exactly 3 becomes Alive, and every
other cell is unchanged. -/
theorem tick_applies_life_rule (u u' : Universe)
    (_hlen : u.cells.length = u.width * u.height)
    (ht : tick u = some u') (r c : Nat) (hr : r < u.height) (hc : c < u.width) :
    ∃ cell n,
      u.cells[r * u.width + c]? = some cell ∧
      get_live_neighbor_count u r c = some n ∧
      ((cell = Cell.Alive ∧ n < 2 → u'.cells[r * u.width + c]? = some Cell.Dead) ∧
       (cell = Cell.Alive ∧ (n = 2 ∨ n = 3) → u'.cells[r * u.width + c]? = some Cell.Alive) ∧
       (cell = Cell.Alive ∧ 3 < n → u'.cells[r * u.width + c]? = some Cell.Dead) ∧
       (cell = Cell.Dead ∧ n = 3 → u'.cells[r * u.width + c]? = some Cell.Alive) ∧
       (cell = Cell.Dead ∧ n ≠ 3 → u'.cells[r * u.width + c]? = some cell)) := by
  obtain ⟨-, -, -, hcells⟩ := tick_spec ht
  obtain ⟨cell, n, h1, h2, h3⟩ := hcells r c hr hc
  simp only [get_index] at h1 h3
  refine ⟨cell, n, h1, h2, ?_, ?_, ?_, ?_, ?_⟩ <;> rintro ⟨rfl, hcond⟩
  · rw [h3]; simp [nextCell, hcond]
  · have h4 : ¬ n < 2 := by omega
    rw [h3]; simp [nextCell, h4, hcond]
  · have h4 : ¬ n < 2 := by omega
    have h5 : ¬ (n = 2 ∨ n = 3) := by omega
    rw [h3]; simp [nextCell, h4, h5, hcond]
  · rw [h3]; simp [nextCell, hcond]
  · rw [h3]; simp [nextCell, hcond]

/-- Witness for the C1 theorem: the 1×1 all-alive universe, whose single
cell has (toroidal, duplicate-offset) live-neighbor count 5 and dies. -/
theorem tick_applies_life_rule_witness :
    ∃ cell n,
      [Cell.Alive][0 * 1 + 0]? = some cell ∧
      get_live_neighbor_count ⟨1, 1, [Cell.Alive]⟩ 0 0 = some n ∧
      ((cell = Cell.Alive ∧ n < 2 → [Cell.Dead][0 * 1 + 0]? = some Cell.Dead) ∧
       (cell = Cell.Alive ∧ (n = 2 ∨ n = 3) → [Cell.Dead][0 * 1 + 0]? = some Cell.Alive) ∧
       (cell = Cell.Alive ∧ 3 < n → [Cell.Dead][0 * 1 + 0]? = some Cell.Dead) ∧
       (cell = Cell.Dead ∧ n = 3 → [Cell.Dead][0 * 1 + 0]? = some Cell.Alive) ∧
       (cell = Cell.Dead ∧ n ≠ 3 → [Cell.Dead][0 * 1 + 0]? = some cell)) :=
  tick_applies_life_rule ⟨1, 1, [Cell.Alive]⟩ ⟨1, 1, [Cell.Dead]⟩ (by decide)
    (by decide) 0 0 (by decide) (by decide)

/-- C5: for every universe satisfying `cells.length = width * height`, any
completed sequence of `tick`, in-range `set_alive` and `generate_glider`
calls preserves that invariant and leaves `width` and `height` unchanged. -/
theorem ops_preserve_grid_invariant (u u' : Universe) (ops : List UOp)
    (hlen : u.cells.length = u.width * u.height)
    (_hops : ∀ r c, UOp.setAlive r c ∈ ops → r < u.height ∧ c < u.width)
    (hrun : runOps u ops = some u') :
    u'.cells.length = u'.width * u'.height ∧ u'.width = u.width ∧ u'.height = u.height := by
  obtain ⟨hw, hh, hl⟩ := runOps_dims ops u u' hrun
  exact ⟨by rw [hl, hw, hh, hlen], hw, hh⟩

/-- Witness for the C5 theorem: seed the glider, tick once and set a cell
on a 4×4 all-dead universe. -/
theorem ops_preserve_grid_invariant_witness :
    (Universe.mk 4 4 [Cell.Alive, Cell.Alive, Cell.Dead, Cell.Alive,
        Cell.Dead, Cell.Dead, Cell.Dead, Cell.Dead,
        Cell.Alive, Cell.Alive, Cell.Dead, Cell.Alive,
        Cell.Alive, Cell.Dead, Cell.Alive, Cell.Alive]).cells.length =
      (Universe.mk 4 4 [Cell.Alive, Cell.Alive, Cell.Dead, Cell.Alive,
        Cell.Dead, Cell.Dead, Cell.Dead, Cell.Dead,
        Cell.Alive, Cell.Alive, Cell.Dead, Cell.Alive,
        Cell.Alive, Cell.Dead, Cell.Alive, Cell.Alive]).width *
      (Universe.mk 4 4 [Cell.Alive, Cell.Alive, Cell.Dead, Cell.Alive,
        Cell.Dead, Cell.Dead, Cell.Dead, Cell.Dead,
        Cell.Alive, Cell.Alive, Cell.Dead, Cell.Alive,
        Cell.Alive, Cell.Dead, Cell.Alive, Cell.Alive]).height ∧
    (Universe.mk 4 4 [Cell.Alive, Cell.Alive, Cell.Dead, Cell.Alive,
        Cell.Dead, Cell.Dead, Cell.Dead, Cell.Dead,
        Cell.Alive, Cell.Alive, Cell.Dead, Cell.Alive,
        Cell.Alive, Cell.Dead, Cell.Alive, Cell.Alive]).width = 4 ∧
    (Universe.mk 4 4 [Cell.Alive, Cell.Alive, Cell.Dead, Cell.Alive,
        Cell.Dead, Cell.Dead, Cell.Dead, Cell.Dead,
        Cell.Alive, Cell.Alive, Cell.Dead, Cell.Alive,
        Cell.Alive, Cell.Dead, Cell.Alive, Cell.Alive]).height = 4 :=
  ops_preserve_grid_invariant ⟨4, 4, List.replicate 16 Cell.Dead⟩
    ⟨4, 4, [Cell.Alive, Cell.Alive, Cell.Dead, Cell.Alive,
        Cell.Dead, Cell.Dead, Cell.Dead, Cell.Dead,
        Cell.Alive, Cell.Alive, Cell.Dead, Cell.Alive,
        Cell.Alive, Cell.Dead, Cell.Alive, Cell.Alive]⟩
    [UOp.glider, UOp.tick, UOp.setAlive 0 0]
    (by decide)
    (by
      intro r c h
      simp only [List.mem_cons, List.not_mem_nil, or_false, reduceCtorEq, false_or,
        UOp.setAlive.injEq] at h
      obtain ⟨rfl, rfl⟩ := h
      exact ⟨by decide, by decide⟩)
    (by decide)

/-- C2 evaluation: `get_live_neighbor_count` reduces the row coordinate
modulo `width` and the column coordinate modulo `height`, not the other
way around as the spec states.  On the 2-wide, 3-high grid whose only live
cell is (2,1), the code counts 0 live neighbors for (0,0) while the
spec's formula counts that cell. -/
theorem neighbor_count_mixes_axes :
    get_live_neighbor_count
      ⟨2, 3, [Cell.Dead, Cell.Dead, Cell.Dead, Cell.Dead, Cell.Dead, Cell.Alive]⟩
      0 0 = some 0 ∧
    neighborCountSpec
      ⟨2, 3, [Cell.Dead, Cell.Dead, Cell.Dead, Cell.Dead, Cell.Dead, Cell.Alive]⟩
      0 0 = some 2 := by decide

/-- C3 evaluation: on a 2×2 grid, `set_alive(0, width)` does not fail: it
computes index `0 * 2 + 2 = 2` which is still inside the buffer and
silently sets the cell at row 1, column 0; only `set_alive(height, 0)`
fails with a bounds error. -/
theorem set_alive_out_of_range_behavior :
    set_alive ⟨2, 2, [Cell.Dead, Cell.Dead, Cell.Dead, Cell.Dead]⟩ 0 2 =
      some ⟨2, 2, [Cell.Dead, Cell.Dead, Cell.Alive, Cell.Dead]⟩ ∧
    set_alive ⟨2, 2, [Cell.Dead, Cell.Dead, Cell.Dead, Cell.Dead]⟩ 2 0 = none := by
  decide

/-- C4 evaluation: on the 2-wide, 1-high grid (cells length `2 = 2 * 1`,
query in range), `get_live_neighbor_count` indexes past the buffer and
panics (`none`) instead of returning a count between 0 and 8. -/
theorem neighbor_count_out_of_bounds :
    get_live_neighbor_count ⟨2, 1, [Cell.Dead, Cell.Dead]⟩ 0 0 = none ∧
    (Universe.mk 2 1 [Cell.Dead, Cell.Dead]).cells.length =
      (Universe.mk 2 1 [Cell.Dead, Cell.Dead]).width *
      (Universe.mk 2 1 [Cell.Dead, Cell.Dead]).height := by decide

/-- C6 evaluation: on the non-square 4-wide, 5-high grid whose only live
cells are the interior 2×2 block at rows 1-2, columns 1-2, `tick`
completes but changes the grid: the mixed-axis neighbor count gives the
block cell (1,1) (index 5) five live neighbors, so it dies. -/
theorem block_changes_on_nonsquare_grid :
    get_live_neighbor_count
      ⟨4, 5, [Cell.Dead, Cell.Dead, Cell.Dead, Cell.Dead,
              Cell.Dead, Cell.Alive, Cell.Alive, Cell.Dead,
              Cell.Dead, Cell.Alive, Cell.Alive, Cell.Dead,
              Cell.Dead, Cell.Dead, Cell.Dead, Cell.Dead,
              Cell.Dead, Cell.Dead, Cell.Dead, Cell.Dead]⟩ 1 1 = some 5 ∧
    (tick ⟨4, 5, [Cell.Dead, Cell.Dead, Cell.Dead, Cell.Dead,
              Cell.Dead, Cell.Alive, Cell.Alive, Cell.Dead,
              Cell.Dead, Cell.Alive, Cell.Alive, Cell.Dead,
              Cell.Dead, Cell.Dead, Cell.Dead, Cell.Dead,
              Cell.Dead, Cell.Dead, Cell.Dead, Cell.Dead]⟩).map
      (fun v => v.cells[1 * 4 + 1]?) = some (some Cell.Dead) := by decide

/-- C7 evaluation: on the 3-wide, 2-high grid whose only live cell is the
far corner (height-1, width-1) = (1,2), `get_live_neighbor_count (0, 0)`
returns 0: the mixed-axis wraparound never reads that cell. -/
theorem corner_neighbor_not_counted :
    (Universe.mk 3 2 [Cell.Dead, Cell.Dead, Cell.Dead,
        Cell.Dead, Cell.Dead, Cell.Alive]).cells[(2 - 1) * 3 + (3 - 1)]? =
      some Cell.Alive ∧
    get_live_neighbor_count
      ⟨3, 2, [Cell.Dead, Cell.Dead, Cell.Dead, Cell.Dead, Cell.Dead, Cell.Alive]⟩
      0 0 = some 0 := by decide

/-- C8: for every outcome of the external randomness source, `new` returns
a 64×64 universe in which the five glider cells (1,2), (2,3), (3,1),
(3,2), (3,3) are Alive, regardless of the random initial grid. -/
theorem new_has_glider (rnd : Nat → Cell) :
    ∃ u', Universe.new rnd = some u' ∧ u'.width = 64 ∧ u'.height = 64 ∧
      u'.cells[1 * 64 + 2]? = some Cell.Alive ∧
      u'.cells[2 * 64 + 3]? = some Cell.Alive ∧
      u'.cells[3 * 64 + 1]? = some Cell.Alive ∧
      u'.cells[3 * 64 + 2]? = some Cell.Alive ∧
      u'.cells[3 * 64 + 3]? = some Cell.Alive := by
  have hlen : ((List.range (64 * 64)).map rnd).length = 4096 := by simp
  refine ⟨⟨64, 64, ((((((List.range (64 * 64)).map rnd).set 66 Cell.Alive).set
      131 Cell.Alive).set 193 Cell.Alive).set 194 Cell.Alive).set 195 Cell.Alive⟩,
    ?_, rfl, rfl, ?_, ?_, ?_, ?_, ?_⟩
  · simp [Universe.new, generate_glider, set_alive, setCell, get_index, hlen]
  all_goals simp [hlen]

/-- C9: on any universe satisfying the size invariant, an in-range
`set_alive` succeeds, is idempotent (the second call returns exactly the
same state), leaves the target cell Alive, and leaves every other in-range
cell exactly as it was. -/
theorem set_alive_idempotent_frame (u : Universe) (r c : Nat)
    (hlen : u.cells.length = u.width * u.height)
    (hr : r < u.height) (hc : c < u.width) :
    ∃ u1, set_alive u r c = some u1 ∧ set_alive u1 r c = some u1 ∧
      u1.width = u.width ∧ u1.height = u.height ∧
      u1.cells[r * u.width + c]? = some Cell.Alive ∧
      ∀ r' c', r' < u.height → c' < u.width → (r' ≠ r ∨ c' ≠ c) →
        u1.cells[r' * u.width + c']? = u.cells[r' * u.width + c']? := by
  have hidx : get_index u r c < u.cells.length := by
    rw [hlen]; exact get_index_lt u hr hc
  refine ⟨{ u with cells := u.cells.set (get_index u r c) Cell.Alive },
    set_alive_eq_some.mpr ⟨hidx, rfl⟩, ?_, rfl, rfl, ?_, ?_⟩
  · refine set_alive_eq_some.mpr ⟨?_, ?_⟩
    · simpa [get_index] using hidx
    · simp [get_index, List.set_set]
  · have h := List.getElem?_set_self (l := u.cells) (a := Cell.Alive) hidx
    simpa [get_index] using h
  · intro r' c' hr' hc' hne
    have hne2 : get_index u r c ≠ get_index u r' c' := by
      intro heq
      obtain ⟨h1, h2⟩ := get_index_inj u hc hc' heq
      rcases hne with h | h
      · exact h h1.symm
      · exact h h2.symm
    have h := List.getElem?_set_ne (l := u.cells) (a := Cell.Alive) hne2
    simpa [get_index] using h

/-- Witness for the C9 theorem: set cell (0,1) of a 2×2 all-dead universe. -/
theorem set_alive_idempotent_frame_witness :
    ∃ u1, set_alive ⟨2, 2, [Cell.Dead, Cell.Dead, Cell.Dead, Cell.Dead]⟩ 0 1 = some u1 ∧
      set_alive u1 0 1 = some u1 ∧ u1.width = 2 ∧ u1.height = 2 ∧
      u1.cells[0 * 2 + 1]? = some Cell.Alive ∧
      ∀ r' c', r' < 2 → c' < 2 → (r' ≠ 0 ∨ c' ≠ 1) →
        u1.cells[r' * 2 + c']? = [Cell.Dead, Cell.Dead, Cell.Dead, Cell.Dead][r' * 2 + c']? :=
  set_alive_idempotent_frame ⟨2, 2, [Cell.Dead, Cell.Dead, Cell.Dead, Cell.Dead]⟩ 0 1
    (by decide) (by decide) (by decide)

theorem chunkList_structure (w : Nat) (hw : 0 < w) :
    ∀ (h : Nat) (l : List Cell), l.length = w * h →
      (chunkList (w - 1) l).length = h ∧
      (∀ row ∈ chunkList (w - 1) l, row.length = w) ∧
      (chunkList (w - 1) l).flatten = l := by
  intro h
  induction h with
  | zero =>
    intro l hl
    have hnil : l = [] := List.length_eq_zero.mp (by omega)
    subst hnil
    simp [chunkList]
  | succ h ih =>
    intro l hl
    have hmul : w * (h + 1) = w * h + w := by ring
    cases l with
    | nil => simp at hl; omega
    | cons x xs =>
      have hxs : xs.length = w * h + (w - 1) := by
        simp only [List.length_cons] at hl
        omega
      have htake : (xs.take (w - 1)).length = w - 1 := by
        simp only [List.length_take]
        omega
      have hdrop : (xs.drop (w - 1)).length = w * h := by
        simp only [List.length_drop]
        omega
      obtain ⟨ih1, ih2, ih3⟩ := ih (xs.drop (w - 1)) hdrop
      refine ⟨?_, ?_, ?_⟩
      · simp only [chunkList, List.length_cons, ih1]
      · intro row hrow
        simp only [chunkList, List.mem_cons] at hrow
        rcases hrow with rfl | hrow'
        · simp only [List.length_cons, htake]
          omega
        · exact ih2 row hrow'
      · simp only [chunkList, List.flatten_cons, ih3, List.cons_append,
          List.take_append_drop]

theorem String_foldl_append_data (ss : List String) :
    ∀ s : String, (ss.foldl (fun r t => r ++ t) s).data =
      s.data ++ (ss.map String.data).flatten := by
  induction ss with
  | nil => intro s; simp
  | cons x ss ih =>
    intro s
    simp only [List.foldl_cons, List.map_cons, List.flatten_cons]
    rw [ih (s ++ x)]
    simp [List.append_assoc]

theorem String_join_data (ss : List String) :
    (String.join ss).data = (ss.map String.data).flatten := by
  unfold String.join
  rw [String_foldl_append_data]
  rfl

/-- C10: `render` on a universe with positive width satisfying the size
invariant produces a string made of exactly `height` newline-terminated
lines, each consisting of `width` glyphs, one glyph per row-major cell,
with distinct glyphs for Alive and Dead. -/
theorem render_structure (u : Universe)
    (hw : 0 < u.width) (hlen : u.cells.length = u.width * u.height) :
    ∃ (s : String) (rows : List (List Cell)), render u = some s ∧
      rows.length = u.height ∧
      (∀ row ∈ rows, row.length = u.width) ∧
      rows.flatten = u.cells ∧
      s.data = (rows.map (fun row => row.map renderCellChar ++ ['\n'])).flatten ∧
      renderCellChar Cell.Dead ≠ renderCellChar Cell.Alive := by
  obtain ⟨h1, h2, h3⟩ := chunkList_structure u.width hw u.height u.cells hlen
  have hr : render u = some (String.join ((chunkList (u.width - 1) u.cells).map
      (fun line => String.mk (line.map renderCellChar) ++ "\n"))) := by
    unfold render
    rw [if_neg (by omega)]
  refine ⟨_, chunkList (u.width - 1) u.cells, hr, h1, h2, h3, ?_, by decide⟩
  rw [String_join_data, List.map_map]
  have hfun : (String.data ∘ fun line : List Cell =>
      String.mk (line.map renderCellChar) ++ "\n") =
      (fun row : List Cell => row.map renderCellChar ++ ['\n']) := by
    funext line
    rfl
  rw [hfun]

/-- Witness for the C10 theorem: render the 2×1 universe `[Alive, Dead]`. -/
theorem render_structure_witness :
    ∃ (s : String) (rows : List (List Cell)),
      render ⟨2, 1, [Cell.Alive, Cell.Dead]⟩ = some s ∧
      rows.length = 1 ∧
      (∀ row ∈ rows, row.length = 2) ∧
      rows.flatten = [Cell.Alive, Cell.Dead] ∧
      s.data = (rows.map (fun row => row.map renderCellChar ++ ['\n'])).flatten ∧
      renderCellChar Cell.Dead ≠ renderCellChar Cell.Alive :=
  render_structure ⟨2, 1, [Cell.Alive, Cell.Dead]⟩ (by decide) (by decide)

/-- Witness for the C8 theorem at the all-Dead randomness outcome. -/
theorem new_has_glider_witness :
    ∃ u', Universe.new (fun _ => Cell.Dead) = some u' ∧ u'.width = 64 ∧ u'.height = 64 ∧
      u'.cells[1 * 64 + 2]? = some Cell.Alive ∧
      u'.cells[2 * 64 + 3]? = some Cell.Alive ∧
      u'.cells[3 * 64 + 1]? = some Cell.Alive ∧
      u'.cells[3 * 64 + 2]? = some Cell.Alive ∧
      u'.cells[3 * 64 + 3]? = some Cell.Alive :=
  new_has_glider (fun _ => Cell.Dead)
